import Mathlib

/-!
Shallow embedding of `cloud/smartdatacenter/sdc.py` (the SDC provisioning
module): the functions `_wait_for_status`, `list_existing_machines`,
`create_virtual_machine` and `delete_machines`, together with the Python
semantics they rely on (dict truthiness, `dict(items1 + items2)` merging,
`int(None)` raising `TypeError`).

The external SmartDataCenter client (`sdc.machines`, `sdc.create_machine`,
`sm.status()`, `sm.stop()`, `sm.delete()`, `sdc.raw_machine_data`) is modelled
as an oracle record `SDC`; every call the module issues to it is recorded in a
trace of `ApiCall`s, so that claims about which provider calls are made, and
in which order, are statements about that trace.  Wall-clock time in the
polling loop is abstracted: status answers depend on the index of the
`all(...)` evaluation, and the deadline `time.time() < t0 + wait_timeout`
becomes a poll budget of `⌈wait_timeout / 2⌉` sleeps (one 2-second sleep per
loop iteration), which is `0` whenever `wait_timeout ≤ 0`.
-/

namespace SdcModule

/-- Errors a run of the module can end in: `typeError` is Python's `TypeError`
raised by `int(None)`; `failJson msg` is `module.fail_json(msg=msg)`. -/
inductive PyErr where
  | typeError
  | failJson (msg : String)
  deriving Repr, DecidableEq

/-- A machine handle as returned by the provider client (`sm`); only its `id`
is consumed by the module (`sm.id`, and as the key of `status`/`stop`/`delete`
calls). -/
structure Machine where
  id : String
  deriving Repr, DecidableEq

/-- One call the module issues to the provider client.  Tag arguments are the
association lists the module passes (for `createMachine`, the concatenation
`tags.items() + count_tag.items()` that Python's `dict(...)` is built from). -/
inductive ApiCall where
  | listMachines (tags : List (String × String)) (state : Option String)
  | machineById (id : String)
  | createMachine (name package image : Option String)
      (networks : Option (List String)) (tags : List (String × String))
  | status (id : String)
  | stop (id : String)
  | delete (id : String)
  | rawMachineData (id : String)
  deriving Repr, DecidableEq

/-- The validated module parameters, as `module.params` delivers them:
`tags`/`count_tag` default to `{}`, `count` to `1`, `wait` to `True`,
`wait_timeout` to `600`; `exact_count`, `machine_id`, `name`, `package`,
`image` and `networks` have no default and may be `None`. -/
structure Params where
  machine_id : Option String := none
  name : Option String := none
  package : Option String := none
  image : Option String := none
  networks : Option (List String) := none
  tags : List (String × String) := []
  count : Int := 1
  count_tag : List (String × String) := []
  exact_count : Option Int := none
  wait : Bool := true
  wait_timeout : Int := 600
  deriving Repr

/-- The provider-client oracle: what the external SmartDataCenter API answers.
`created n` is the machine returned by the `n`-th `create_machine` call of the
invocation; `statusAt id e` is what `sm.status()` reports for machine `id` at
the `e`-th evaluation of an `all(sm.status() == status ...)` expression. -/
structure SDC where
  listRunning : List (String × String) → List Machine
  listByTags : List (String × String) → List Machine
  machineById : String → Machine
  created : Nat → Machine
  statusAt : String → Nat → String
  rawData : String → String

/-- Python `int(x)` on an optional integer parameter: `int(None)` raises
`TypeError`. -/
def pyInt : Option Int → Except PyErr Int
  | none => .error .typeError
  | some n => .ok n

/-- Lookup in the dict built by Python's `dict(items)`: for a duplicated key
the later binding wins. -/
def pyDict : List (String × String) → String → Option String
  | [], _ => none
  | kv :: rest, key =>
    match pyDict rest key with
    | some v => some v
    | none => if kv.1 = key then some kv.2 else none

/-- Truthiness of an optional string parameter (`module.params.get('machine_id')`):
`None` and the empty string are falsy. -/
def strTruthy : Option String → Bool
  | none => false
  | some s => !(s.isEmpty)

/-- How many loop iterations (2-second sleeps) the deadline
`wait_timeout_time > time.time()` admits: `⌈wait_timeout / 2⌉` for a positive
timeout, `0` otherwise. -/
def pollBudget (wait_timeout : Int) : Nat := ((wait_timeout + 1) / 2).toNat

/-- One evaluation of `all(sm.status() == status for sm in machines)` at
evaluation index `e`: Python's `all` over a generator short-circuits at the
first machine whose status differs, so the trace records a `status` call for
each machine queried up to and including that one. -/
def allStatus (sdc : SDC) (target : String) (e : Nat) :
    List Machine → Bool × List ApiCall
  | [] => (true, [])
  | m :: rest =>
    if sdc.statusAt m.id e = target then
      let r := allStatus sdc target e rest
      (r.1, ApiCall.status m.id :: r.2)
    else
      (false, [ApiCall.status m.id])

/-- The evaluation index at which the `while` loop of `_wait_for_status`
exits: the loop re-evaluates `all(...)` once per iteration (evaluation
indices `e, e+1, ...`) and stops as soon as the check succeeds or the poll
budget is exhausted. -/
def loopExitIdx (sdc : SDC) (ms : List Machine) (target : String) :
    Nat → Nat → Nat
  | 0, e => e
  | fuel + 1, e =>
    if (allStatus sdc target e ms).1 then e
    else loopExitIdx sdc ms target fuel (e + 1)

/-- The body of `_wait_for_status` from evaluation index `e` with `fuel`
sleeps left: run the `while not all(...) and deadline` loop, then perform the
final `if not all(...)` re-check and `fail_json(msg="Timed out creating
machines")` when it fails.  Returns the outcome together with the trace of
`status` calls issued. -/
def waitAux (sdc : SDC) (ms : List Machine) (target : String) :
    Nat → Nat → Except PyErr Unit × List ApiCall
  | 0, e =>
    let c := allStatus sdc target e ms
    let f := allStatus sdc target (e + 1) ms
    ((if f.1 then .ok () else .error (.failJson "Timed out creating machines")),
      c.2 ++ f.2)
  | fuel + 1, e =>
    let c := allStatus sdc target e ms
    if c.1 then
      let f := allStatus sdc target (e + 1) ms
      ((if f.1 then .ok () else .error (.failJson "Timed out creating machines")),
        c.2 ++ f.2)
    else
      let r := waitAux sdc ms target fuel (e + 1)
      (r.1, c.2 ++ r.2)

/-- Embedding of `_wait_for_status(module, machines, status)`: poll every 2
seconds until all of `machines` report `status` or `wait_timeout` elapses,
then re-check and fail with `"Timed out creating machines"` if some machine
still differs. -/
def wait_for_status (sdc : SDC) (ms : List Machine) (target : String)
    (wait_timeout : Int) : Except PyErr Unit × List ApiCall :=
  waitAux sdc ms target (pollBudget wait_timeout) 0

/-- Embedding of `list_existing_machines(module, sdc, tags)`: fail when
`tags` is falsy, otherwise `sdc.machines(tags=tags, state='running')`. -/
def list_existing_machines (sdc : SDC) (tags : List (String × String)) :
    Except PyErr (List Machine) × List ApiCall :=
  if tags.isEmpty then
    (.error (.failJson "Must have tags to list existing machines for deletion/counting"), [])
  else
    (.ok (sdc.listRunning tags), [ApiCall.listMachines tags (some "running")])

/-- Embedding of `create_virtual_machine(module, sdc)`: returns
`(changed, machines)` on success (machines expanded through
`raw_machine_data`), or the failure the Python code ends in, together with
the trace of provider calls. -/
def create_virtual_machine (sdc : SDC) (p : Params) :
    Except PyErr (Bool × List String) × List ApiCall :=
  match pyInt p.exact_count with
  | .error err => (.error err, [])
  | .ok exact_count =>
    let full_tags := p.tags ++ p.count_tag
    let exactMode := !p.count_tag.isEmpty && exact_count != 0
    match (if exactMode then list_existing_machines sdc p.count_tag
           else (.ok [], [])) with
    | (.error err, tr) => (.error err, tr)
    | (.ok existing_machines, tr0) =>
      let count_needed : Int :=
        if exactMode then exact_count - existing_machines.length else p.count
      if count_needed > 0 then
        let created_machines :=
          (List.range count_needed.toNat).map (fun i => sdc.created i)
        let createCalls :=
          (List.range count_needed.toNat).map (fun _ =>
            ApiCall.createMachine p.name p.package p.image p.networks full_tags)
        match (if p.wait then
                 wait_for_status sdc created_machines "running" p.wait_timeout
               else (.ok (), [])) with
        | (.error err, wtr) => (.error err, tr0 ++ createCalls ++ wtr)
        | (.ok _, wtr) =>
          let all_machines := existing_machines ++ created_machines
          (.ok (true, all_machines.map (fun m => sdc.rawData m.id)),
            tr0 ++ createCalls ++ wtr
              ++ all_machines.map (fun m => ApiCall.rawMachineData m.id))
      else
        (.ok (false, existing_machines.map (fun m => sdc.rawData m.id)),
          tr0 ++ existing_machines.map (fun m => ApiCall.rawMachineData m.id))

/-- The `machines` local of `delete_machines`: select by `tags` (any state)
when `tags` is truthy, else by `machine_id` when that is truthy, else
nothing. -/
def selectedMachines (sdc : SDC) (p : Params) : List Machine :=
  if !p.tags.isEmpty then sdc.listByTags p.tags
  else if strTruthy p.machine_id then [sdc.machineById (p.machine_id.getD "")]
  else []

/-- The provider calls the selection step of `delete_machines` issues:
`sdc.machines(tags=...)` or `sdc.machine(machine_id)`. -/
def selectionCalls (p : Params) : List ApiCall :=
  if !p.tags.isEmpty then [ApiCall.listMachines p.tags none]
  else if strTruthy p.machine_id then [ApiCall.machineById (p.machine_id.getD "")]
  else []

/-- Embedding of `delete_machines(module, sdc)`: select machines by `tags`
(any state) or, failing that, by `machine_id`; if any are selected, stop
each, wait for all to report `stopped`, then delete each; returns `changed`
and the call trace. -/
def delete_machines (sdc : SDC) (p : Params) :
    Except PyErr Bool × List ApiCall :=
  let machines := selectedMachines sdc p
  if machines.isEmpty then (.ok false, selectionCalls p)
  else
    let stopCalls := machines.map (fun m => ApiCall.stop m.id)
    match wait_for_status sdc machines "stopped" p.wait_timeout with
    | (.error err, wtr) => (.error err, selectionCalls p ++ stopCalls ++ wtr)
    | (.ok _, wtr) =>
      (.ok true,
        selectionCalls p ++ stopCalls ++ wtr
          ++ machines.map (fun m => ApiCall.delete m.id))

/-- The boolean value of the Python condition `count_tag and exact_count`
(dict truthiness for `count_tag`, integer truthiness for the already
converted `exact_count = n`). -/
def exactModeB (p : Params) (n : Int) : Bool :=
  !p.count_tag.isEmpty && n != 0

/-- The `count_needed` local of `create_virtual_machine`: the shortfall
`exact_count - len(existing_machines)` in exact-count mode, the raw `count`
otherwise. -/
def countNeeded (sdc : SDC) (p : Params) (n : Int) : Int :=
  if exactModeB p n then n - (sdc.listRunning p.count_tag).length else p.count

/-- The machines created in one run (the `created_machines` local):
`countNeeded` handles, from the provider's create oracle. -/
def createdMachines (sdc : SDC) (p : Params) (n : Int) : List Machine :=
  (List.range (countNeeded sdc p n).toNat).map fun i => sdc.created i

/-- Whether a provider call is a `createMachine` call. -/
def isCreate : ApiCall → Bool
  | ApiCall.createMachine _ _ _ _ _ => true
  | _ => false

/-- Number of `createMachine` calls in a trace. -/
def createCount (tr : List ApiCall) : Nat :=
  tr.countP isCreate

/-- A concrete provider oracle for witnesses and counterexamples: no existing
machines, created machines named `m0, m1, ...`, every status query answers
`"provisioning"` (never the target states). -/
def sdcStuck : SDC where
  listRunning := fun _ => []
  listByTags := fun _ => []
  machineById := fun i => ⟨i⟩
  created := fun n => ⟨"m" ++ toString n⟩
  statusAt := fun _ _ => "provisioning"
  rawData := fun i => "raw-" ++ i

/-- A concrete provider oracle whose machines always report `"running"`. -/
def sdcRunning : SDC where
  listRunning := fun _ => []
  listByTags := fun _ => []
  machineById := fun i => ⟨i⟩
  created := fun n => ⟨"m" ++ toString n⟩
  statusAt := fun _ _ => "running"
  rawData := fun i => "raw-" ++ i

/-- A concrete provider oracle whose machines always report `"stopped"`. -/
def sdcStopped : SDC where
  listRunning := fun _ => []
  listByTags := fun _ => []
  machineById := fun i => ⟨i⟩
  created := fun n => ⟨"m" ++ toString n⟩
  statusAt := fun _ _ => "stopped"
  rawData := fun i => "raw-" ++ i

/-- A concrete provider oracle with two machines already matching any listing
query, everything reporting `"running"`. -/
def sdcTwoExisting : SDC where
  listRunning := fun _ => [⟨"e0"⟩, ⟨"e1"⟩]
  listByTags := fun _ => []
  machineById := fun i => ⟨i⟩
  created := fun n => ⟨"m" ++ toString n⟩
  statusAt := fun _ _ => "running"
  rawData := fun i => "raw-" ++ i

/-- Concrete parameter sets used as witnesses and counterexamples. -/
def paramsC1 : Params := { count := 3 }

def paramsC2 : Params := { count_tag := [("role", "web")], exact_count := some 0 }

def paramsC3 : Params := { count_tag := [("role", "web")], exact_count := some 5 }

def paramsC4 : Params := { exact_count := some 5 }

def paramsC5 : Params :=
  { tags := [("env", "x")], count_tag := [("role", "web")], exact_count := some 1 }

def paramsC6 : Params :=
  { count_tag := [("role", "web")], exact_count := some 2, wait_timeout := 0 }

def paramsC7 : Params := { machine_id := some "abc", wait_timeout := 0 }

def paramsC9 : Params :=
  { tags := [("role", "db")], count_tag := [("role", "web")], exact_count := some 1 }

/-! ### Basic lemmas about the embedded primitives -/

/-- A key bound in the right operand of `dict(a + b)` keeps the right
operand's value: later items win. -/
theorem pyDict_append_right (b : List (String × String)) (key v : String)
    (h : pyDict b key = some v) (a : List (String × String)) :
    pyDict (a ++ b) key = some v := by
  induction a with
  | nil => simpa using h
  | cons kv a ih =>
    rw [List.cons_append, pyDict, ih]

/-- A non-positive `wait_timeout` admits no loop iteration at all. -/
theorem pollBudget_of_nonpos (wt : Int) (h : wt ≤ 0) : pollBudget wt = 0 := by
  unfold pollBudget
  omega

/-- The short-circuit `all` evaluation returns `false` exactly when some
machine in the list reports a status other than the target. -/
theorem allStatus_fst_false_iff (sdc : SDC) (target : String) (e : Nat)
    (ms : List Machine) :
    (allStatus sdc target e ms).1 = false ↔
      ∃ m ∈ ms, sdc.statusAt m.id e ≠ target := by
  induction ms with
  | nil => simp [allStatus]
  | cons m rest ih =>
    by_cases h : sdc.statusAt m.id e = target
    · simpa [allStatus, h] using ih
    · simp [allStatus, h]

/-- Every call recorded by the short-circuit `all` evaluation is a status
query. -/
theorem allStatus_snd_mem (sdc : SDC) (target : String) (e : Nat)
    (ms : List Machine) :
    ∀ c ∈ (allStatus sdc target e ms).2, ∃ i, c = ApiCall.status i := by
  induction ms with
  | nil => simp [allStatus]
  | cons m rest ih =>
    by_cases h : sdc.statusAt m.id e = target
    · simp only [allStatus, h, if_pos]
      intro c hc
      rcases List.mem_cons.mp hc with hc | hc
      · exact ⟨m.id, hc⟩
      · exact ih c hc
    · simp [allStatus, h]

/-- When every machine reports the target status, the short-circuit `all`
evaluation answers `true` and queried every machine once, in order. -/
theorem allStatus_of_all (sdc : SDC) (target : String) (e : Nat)
    (ms : List Machine) (h : ∀ m ∈ ms, sdc.statusAt m.id e = target) :
    allStatus sdc target e ms =
      (true, ms.map fun m => ApiCall.status m.id) := by
  induction ms with
  | nil => simp [allStatus]
  | cons m rest ih =>
    have hm := h m (List.mem_cons_self m rest)
    have hrest := ih fun x hx => h x (List.mem_cons_of_mem m hx)
    simp [allStatus, hm, hrest]

/-- The wait loop body fails (with the code's message) exactly when the final
re-check, performed one evaluation after the loop exits, is not all-target. -/
theorem waitAux_fst_error_iff (sdc : SDC) (ms : List Machine)
    (target : String) :
    ∀ fuel e : Nat,
      (waitAux sdc ms target fuel e).1 =
          .error (.failJson "Timed out creating machines") ↔
        (allStatus sdc target (loopExitIdx sdc ms target fuel e + 1) ms).1
          = false := by
  intro fuel
  induction fuel with
  | zero =>
    intro e
    cases hf : (allStatus sdc target (e + 1) ms).1 with
    | false => simp [waitAux, loopExitIdx, hf]
    | true => simp [waitAux, loopExitIdx, hf]
  | succ fuel ih =>
    intro e
    cases hc : (allStatus sdc target e ms).1 with
    | false => simpa [waitAux, loopExitIdx, hc] using ih (e + 1)
    | true =>
      cases hf : (allStatus sdc target (e + 1) ms).1 with
      | false => simp [waitAux, loopExitIdx, hc, hf]
      | true => simp [waitAux, loopExitIdx, hc, hf]

/-- The wait loop body either succeeds or fails with exactly the timeout
message. -/
theorem waitAux_fst_ok_or (sdc : SDC) (ms : List Machine) (target : String) :
    ∀ fuel e : Nat,
      (waitAux sdc ms target fuel e).1 = .ok () ∨
        (waitAux sdc ms target fuel e).1 =
          .error (.failJson "Timed out creating machines") := by
  intro fuel
  induction fuel with
  | zero =>
    intro e
    cases hf : (allStatus sdc target (e + 1) ms).1 with
    | false => right; simp [waitAux, hf]
    | true => left; simp [waitAux, hf]
  | succ fuel ih =>
    intro e
    cases hc : (allStatus sdc target e ms).1 with
    | false => simpa [waitAux, hc] using ih (e + 1)
    | true =>
      cases hf : (allStatus sdc target (e + 1) ms).1 with
      | false => right; simp [waitAux, hc, hf]
      | true => left; simp [waitAux, hc, hf]

/-- Every call the wait loop records is a status query. -/
theorem waitAux_snd_mem (sdc : SDC) (ms : List Machine) (target : String) :
    ∀ fuel e : Nat, ∀ c ∈ (waitAux sdc ms target fuel e).2,
      ∃ i, c = ApiCall.status i := by
  intro fuel
  induction fuel with
  | zero =>
    intro e c hc
    simp only [waitAux, List.append_eq, List.mem_append] at hc
    rcases hc with hc | hc
    · exact allStatus_snd_mem sdc target e ms c hc
    · exact allStatus_snd_mem sdc target (e + 1) ms c hc
  | succ fuel ih =>
    intro e c hc
    by_cases h : (allStatus sdc target e ms).1 = true
    · simp only [waitAux, h, if_true, List.append_eq, List.mem_append] at hc
      rcases hc with hc | hc
      · exact allStatus_snd_mem sdc target e ms c hc
      · exact allStatus_snd_mem sdc target (e + 1) ms c hc
    · simp only [waitAux, h, if_false, Bool.false_eq_true, List.append_eq,
        List.mem_append] at hc
      rcases hc with hc | hc
      · exact allStatus_snd_mem sdc target e ms c hc
      · exact ih (e + 1) c hc

/-- A trace of status queries contains no create call. -/
theorem createCount_of_status {tr : List ApiCall}
    (h : ∀ c ∈ tr, ∃ i, c = ApiCall.status i) : createCount tr = 0 := by
  simp only [createCount, List.countP_eq_zero]
  intro c hc
  rcases h c hc with ⟨i, rfl⟩
  simp [isCreate]

/-- Append is additive for the create-call count. -/
theorem createCount_append (a b : List ApiCall) :
    createCount (a ++ b) = createCount a + createCount b := by
  simp [createCount, List.countP_append]

/-- Expanding machines through `raw_machine_data` issues no create call. -/
theorem createCount_map_raw (ms : List Machine) :
    createCount (ms.map fun m => ApiCall.rawMachineData m.id) = 0 := by
  simp only [createCount, List.countP_eq_zero]
  intro c hc
  rcases List.mem_map.mp hc with ⟨m, _, rfl⟩
  simp [isCreate]

/-- A batch of `k` create calls counts as `k`. -/
theorem createCount_map_create (k : Nat) (nm pk im : Option String)
    (nw : Option (List String)) (t : List (String × String)) :
    createCount ((List.range k).map fun _ =>
      ApiCall.createMachine nm pk im nw t) = k := by
  induction k with
  | zero => rfl
  | succ k ih =>
    rw [List.range_succ, List.map_append, createCount_append, ih]
    simp [createCount, isCreate, List.countP_cons]

/-! ### Lemmas lifting the wait-loop facts through `wait_for_status` -/

/-- Every call `wait_for_status` records is a status query. -/
theorem wait_for_status_snd_mem (sdc : SDC) (ms : List Machine)
    (target : String) (wt : Int) :
    ∀ c ∈ (wait_for_status sdc ms target wt).2, ∃ i, c = ApiCall.status i :=
  waitAux_snd_mem sdc ms target (pollBudget wt) 0

/-- A `wait_for_status` call either succeeds or fails with the timeout
message. -/
theorem wait_for_status_fst_ok_or (sdc : SDC) (ms : List Machine)
    (target : String) (wt : Int) :
    (wait_for_status sdc ms target wt).1 = .ok () ∨
      (wait_for_status sdc ms target wt).1 =
        .error (.failJson "Timed out creating machines") :=
  waitAux_fst_ok_or sdc ms target (pollBudget wt) 0

/-- A `wait_for_status` call fails exactly when the final re-check after the
loop exit is not all-target. -/
theorem wait_for_status_fst_error_iff (sdc : SDC) (ms : List Machine)
    (target : String) (wt : Int) :
    (wait_for_status sdc ms target wt).1 =
        .error (.failJson "Timed out creating machines") ↔
      (allStatus sdc target
        (loopExitIdx sdc ms target (pollBudget wt) 0 + 1) ms).1 = false :=
  waitAux_fst_error_iff sdc ms target (pollBudget wt) 0

/-! ### Characterizing a run of `create_virtual_machine` -/

/-- One run of `create_virtual_machine` with `exact_count` set (so that
`int(...)` does not raise), written in terms of the named intermediates
`exactModeB`, `countNeeded` and `createdMachines`. -/
theorem create_virtual_machine_run (sdc : SDC) (p : Params) (n : Int)
    (hec : p.exact_count = some n) :
    create_virtual_machine sdc p =
      (let tr0 : List ApiCall :=
        if exactModeB p n then
          [ApiCall.listMachines p.count_tag (some "running")]
        else []
       let existing : List Machine :=
        if exactModeB p n then sdc.listRunning p.count_tag else []
       if countNeeded sdc p n > 0 then
        let createCalls := (List.range (countNeeded sdc p n).toNat).map fun _ =>
          ApiCall.createMachine p.name p.package p.image p.networks
            (p.tags ++ p.count_tag)
        match (if p.wait then
                 wait_for_status sdc (createdMachines sdc p n) "running"
                   p.wait_timeout
               else (.ok (), [])) with
        | (.error err, wtr) => (.error err, tr0 ++ createCalls ++ wtr)
        | (.ok _, wtr) =>
          (.ok (true,
              (existing ++ createdMachines sdc p n).map fun m => sdc.rawData m.id),
            tr0 ++ createCalls ++ wtr
              ++ (existing ++ createdMachines sdc p n).map fun m =>
                  ApiCall.rawMachineData m.id)
       else
        (.ok (false, existing.map fun m => sdc.rawData m.id),
          tr0 ++ existing.map fun m => ApiCall.rawMachineData m.id)) := by
  unfold create_virtual_machine createdMachines countNeeded
  rw [hec]
  simp only [pyInt]
  rw [show (!p.count_tag.isEmpty && n != 0) = exactModeB p n from rfl]
  cases hem : exactModeB p n with
  | false => simp [hem]
  | true =>
    have h1 : p.count_tag.isEmpty = false := by
      have h := hem
      simp only [exactModeB, Bool.and_eq_true, Bool.not_eq_true'] at h
      exact h.1
    simp [hem, list_existing_machines, h1]

/-- The selection prefix of the trace contributes no create call. -/
theorem createCount_tr0 (b : Bool) (t : List (String × String))
    (s : Option String) :
    createCount (if b then [ApiCall.listMachines t s] else []) = 0 := by
  cases b <;> simp [createCount, isCreate, List.countP_cons]

/-- A run with `exact_count` set issues exactly `countNeeded` create calls
(clamped at zero), no matter how the wait ends. -/
theorem createCount_create_virtual_machine (sdc : SDC) (p : Params) (n : Int)
    (hec : p.exact_count = some n) :
    createCount (create_virtual_machine sdc p).2 =
      (countNeeded sdc p n).toNat := by
  rw [create_virtual_machine_run sdc p n hec]
  dsimp only
  by_cases hcn : countNeeded sdc p n > 0
  · rw [if_pos hcn]
    cases hw : p.wait with
    | false =>
      rw [if_neg (by simp)]
      dsimp only
      rw [createCount_append, createCount_append, createCount_append,
        createCount_tr0, createCount_map_create, createCount_map_raw]
      simp [createCount]
    | true =>
      rw [if_pos (Eq.refl true)]
      rcases hres : wait_for_status sdc (createdMachines sdc p n) "running"
          p.wait_timeout with ⟨res, wtr⟩
      have hwtr : createCount wtr = 0 :=
        createCount_of_status fun c hc =>
          wait_for_status_snd_mem sdc (createdMachines sdc p n) "running"
            p.wait_timeout c (by rw [hres]; exact hc)
      cases res with
      | error err =>
        dsimp only
        rw [createCount_append, createCount_append, createCount_tr0,
          createCount_map_create, hwtr]
        omega
      | ok u =>
        dsimp only
        rw [createCount_append, createCount_append, createCount_append,
          createCount_tr0, createCount_map_create, createCount_map_raw, hwtr]
        omega
  · rw [if_neg hcn]
    have h0 : (countNeeded sdc p n).toNat = 0 :=
      Int.toNat_eq_zero.mpr (le_of_not_lt hcn)
    rw [createCount_append, createCount_tr0, createCount_map_raw, h0]

/-- Every call in the trace of a run with `exact_count` set is the
exact-count listing, a create with the merged tags, a status query, or a raw
metadata expansion. -/
theorem create_trace_shape (sdc : SDC) (p : Params) (n : Int)
    (hec : p.exact_count = some n) (c : ApiCall)
    (hc : c ∈ (create_virtual_machine sdc p).2) :
    (exactModeB p n = true ∧
        c = ApiCall.listMachines p.count_tag (some "running")) ∨
      c = ApiCall.createMachine p.name p.package p.image p.networks
            (p.tags ++ p.count_tag) ∨
      (∃ i, c = ApiCall.status i) ∨ (∃ i, c = ApiCall.rawMachineData i) := by
  have htr0 : ∀ hmem : c ∈ (if exactModeB p n then
      [ApiCall.listMachines p.count_tag (some "running")] else []),
      (exactModeB p n = true ∧
        c = ApiCall.listMachines p.count_tag (some "running")) := by
    cases hem : exactModeB p n with
    | false => intro hmem; simp at hmem
    | true =>
      intro hmem
      rw [if_pos (Eq.refl true)] at hmem
      exact ⟨rfl, List.mem_singleton.mp hmem⟩
  have hcc : ∀ hmem : c ∈ ((List.range (countNeeded sdc p n).toNat).map fun _ =>
      ApiCall.createMachine p.name p.package p.image p.networks
        (p.tags ++ p.count_tag)),
      c = ApiCall.createMachine p.name p.package p.image p.networks
        (p.tags ++ p.count_tag) := by
    intro hmem
    rcases List.mem_map.mp hmem with ⟨i, _, hci⟩
    exact hci.symm
  have hraw : ∀ (ms : List Machine),
      c ∈ ms.map (fun m => ApiCall.rawMachineData m.id) →
      ∃ i, c = ApiCall.rawMachineData i := by
    intro ms hmem
    rcases List.mem_map.mp hmem with ⟨m, _, hcm⟩
    exact ⟨m.id, hcm.symm⟩
  rw [create_virtual_machine_run sdc p n hec] at hc
  dsimp only at hc
  by_cases hcn : countNeeded sdc p n > 0
  · rw [if_pos hcn] at hc
    cases hw : p.wait with
    | false =>
      rw [hw, if_neg (by simp)] at hc
      dsimp only at hc
      rcases List.mem_append.mp hc with hmem | hmem
      · rcases List.mem_append.mp hmem with hmem | hmem
        · rcases List.mem_append.mp hmem with hmem | hmem
          · exact Or.inl (htr0 hmem)
          · exact Or.inr (Or.inl (hcc hmem))
        · simp at hmem
      · exact Or.inr (Or.inr (Or.inr (hraw _ hmem)))
    | true =>
      rw [hw, if_pos (Eq.refl true)] at hc
      rcases hres : wait_for_status sdc (createdMachines sdc p n) "running"
          p.wait_timeout with ⟨res, wtr⟩
      have hwtr : ∀ x ∈ wtr, ∃ i, x = ApiCall.status i := fun x hx =>
        wait_for_status_snd_mem sdc (createdMachines sdc p n) "running"
          p.wait_timeout x (by rw [hres]; exact hx)
      rw [hres] at hc
      cases res with
      | error err =>
        dsimp only at hc
        rcases List.mem_append.mp hc with hmem | hmem
        · rcases List.mem_append.mp hmem with hmem | hmem
          · exact Or.inl (htr0 hmem)
          · exact Or.inr (Or.inl (hcc hmem))
        · exact Or.inr (Or.inr (Or.inl (hwtr c hmem)))
      | ok u =>
        dsimp only at hc
        rcases List.mem_append.mp hc with hmem | hmem
        · rcases List.mem_append.mp hmem with hmem | hmem
          · rcases List.mem_append.mp hmem with hmem | hmem
            · exact Or.inl (htr0 hmem)
            · exact Or.inr (Or.inl (hcc hmem))
          · exact Or.inr (Or.inr (Or.inl (hwtr c hmem)))
        · exact Or.inr (Or.inr (Or.inr (hraw _ hmem)))
  · rw [if_neg hcn] at hc
    rcases List.mem_append.mp hc with hmem | hmem
    · exact Or.inl (htr0 hmem)
    · exact Or.inr (Or.inr (Or.inr (hraw _ hmem)))

/-- Any create call in the trace carries exactly the merged tag list
`tags.items() + count_tag.items()`. -/
theorem create_trace_create_tags (sdc : SDC) (p : Params)
    (nm pk im : Option String) (nw : Option (List String))
    (t : List (String × String))
    (hmem : ApiCall.createMachine nm pk im nw t ∈
      (create_virtual_machine sdc p).2) :
    t = p.tags ++ p.count_tag := by
  cases hec : p.exact_count with
  | none =>
    unfold create_virtual_machine at hmem
    rw [hec] at hmem
    simp [pyInt] at hmem
  | some n =>
    rcases create_trace_shape sdc p n hec _ hmem with ⟨_, h⟩ | h | ⟨i, h⟩ | ⟨i, h⟩
    · exact absurd h (by simp)
    · simp only [ApiCall.createMachine.injEq] at h
      exact h.2.2.2.2
    · exact absurd h (by simp)
    · exact absurd h (by simp)

/-- With `exact_count` set, a run ends in success or in the timeout failure,
never in any other error. -/
theorem create_fst_ok_or_timeout (sdc : SDC) (p : Params) (n : Int)
    (hec : p.exact_count = some n) :
    (∃ b l, (create_virtual_machine sdc p).1 = .ok (b, l)) ∨
      (create_virtual_machine sdc p).1 =
        .error (.failJson "Timed out creating machines") := by
  rw [create_virtual_machine_run sdc p n hec]
  dsimp only
  by_cases hcn : countNeeded sdc p n > 0
  · rw [if_pos hcn]
    cases hw : p.wait with
    | false =>
      rw [if_neg (by simp)]
      dsimp only
      exact Or.inl ⟨_, _, rfl⟩
    | true =>
      rw [if_pos (Eq.refl true)]
      rcases hres : wait_for_status sdc (createdMachines sdc p n) "running"
          p.wait_timeout with ⟨res, wtr⟩
      have halt := wait_for_status_fst_ok_or sdc (createdMachines sdc p n)
        "running" p.wait_timeout
      rw [hres] at halt
      dsimp only at halt
      cases res with
      | error err =>
        right
        dsimp only
        rcases halt with h | h
        · exact absurd h (by simp)
        · injection h with h1
          rw [h1]
      | ok u =>
        dsimp only
        exact Or.inl ⟨_, _, rfl⟩
  · rw [if_neg hcn]
    exact Or.inl ⟨_, _, rfl⟩

/-- In exact-count mode the trace contains the `count_tag`-and-running
listing call. -/
theorem create_trace_mem_list (sdc : SDC) (p : Params) (n : Int)
    (hec : p.exact_count = some n) (hem : exactModeB p n = true) :
    ApiCall.listMachines p.count_tag (some "running") ∈
      (create_virtual_machine sdc p).2 := by
  rw [create_virtual_machine_run sdc p n hec]
  dsimp only
  simp only [hem, eq_self_iff_true, if_true]
  by_cases hcn : countNeeded sdc p n > 0
  · rw [if_pos hcn]
    cases hw : p.wait with
    | false =>
      rw [if_neg (by simp)]
      dsimp only
      simp
    | true =>
      rw [if_pos (Eq.refl true)]
      rcases hres : wait_for_status sdc (createdMachines sdc p n) "running"
          p.wait_timeout with ⟨res, wtr⟩
      cases res with
      | error err => dsimp only; simp
      | ok u => dsimp only; simp
  · rw [if_neg hcn]
    simp

/-- Outside exact-count mode a run issues no listing call at all. -/
theorem create_trace_no_list (sdc : SDC) (p : Params) (n : Int)
    (hec : p.exact_count = some n) (hem : exactModeB p n = false)
    (t : List (String × String)) (s : Option String) :
    ApiCall.listMachines t s ∉ (create_virtual_machine sdc p).2 := by
  intro hc
  rcases create_trace_shape sdc p n hec _ hc with ⟨h1, _⟩ | h | ⟨i, h⟩ | ⟨i, h⟩
  · simp [hem] at h1
  · exact absurd h (by simp)
  · exact absurd h (by simp)
  · exact absurd h (by simp)

/-! ## Claims -/

/-- C1: the spec's fallback scenario (`count = 3`, `exact_count` unset)
expects 3 create calls, a result list of length 3 and `changed = true`; the
code instead evaluates `int(module.params.get('exact_count'))` before
anything else, and `int(None)` raises `TypeError`, so the run aborts with no
provider call at all.  This theorem evaluates the embedded code on any
parameters with `exact_count` unset. -/
theorem C1_count_fallback_raises_typeerror (sdc : SDC) (p : Params)
    (hec : p.exact_count = none) :
    create_virtual_machine sdc p = (.error .typeError, []) := by
  unfold create_virtual_machine
  rw [hec]
  rfl

/-- C1 witness: the failing input of the scenario itself, `count = 3` with
`exact_count` unset: the run raises `TypeError` instead of creating three
machines. -/
theorem C1_count_fallback_raises_typeerror_witness :
    paramsC1.exact_count = none ∧
      create_virtual_machine sdcRunning paramsC1 = (.error .typeError, []) :=
  ⟨rfl, C1_count_fallback_raises_typeerror sdcRunning paramsC1 rfl⟩

/-- C2: claimed for every `exactCount ≥ 0` that `k ≥ exactCount` matching
machines mean zero creates and `changed = false`.  At `exact_count = 0` with
a nonempty `count_tag`, no existing machines (`k = 0 ≥ 0`) and the default
`count = 1`, the Python truthiness of `count_tag and exact_count` treats
`0` as unset and takes the fallback path: one machine is created and
`changed = true`. -/
theorem C2_exact_count_zero_is_falsy :
    createCount (create_virtual_machine sdcRunning paramsC2).2 = 1 ∧
      (create_virtual_machine sdcRunning paramsC2).1 =
        .ok (true, ["raw-m0"]) := by
  constructor
  · rfl
  · rfl

/-- C3: with `count_tag` nonempty and `exact_count = n` exceeding the number
`k` of machines the provider lists for `count_tag` with status running, the
run issues exactly `n - k` create calls — never more, never fewer — and the
trace contains the listing call filtered by `count_tag` and
`state='running'` from which `k` is taken. -/
theorem C3_exact_count_shortfall (sdc : SDC) (p : Params) (n : Int)
    (hct : p.count_tag ≠ [])
    (hec : p.exact_count = some n)
    (hgt : ((sdc.listRunning p.count_tag).length : Int) < n) :
    createCount (create_virtual_machine sdc p).2 =
        (n - (sdc.listRunning p.count_tag).length).toNat ∧
      ApiCall.listMachines p.count_tag (some "running") ∈
        (create_virtual_machine sdc p).2 := by
  have hne : n ≠ 0 := by omega
  have hem : exactModeB p n = true := by
    simp [exactModeB, List.isEmpty_eq_false.mpr hct, hne]
  constructor
  · rw [createCount_create_virtual_machine sdc p n hec]
    simp [countNeeded, hem]
  · exact create_trace_mem_list sdc p n hec hem

/-- C3 witness: the spec scenario `exact_count = 5` with two existing
matching running machines yields exactly three create calls alongside the
filtered listing call. -/
theorem C3_exact_count_shortfall_witness :
    createCount (create_virtual_machine sdcTwoExisting paramsC3).2 = 3 ∧
      ApiCall.listMachines paramsC3.count_tag (some "running") ∈
        (create_virtual_machine sdcTwoExisting paramsC3).2 := by
  have h := C3_exact_count_shortfall sdcTwoExisting paramsC3 5 (by decide) rfl
    (by decide)
  exact ⟨h.1.trans (by decide), h.2⟩

/-- C4 counterexample: with `exact_count = 5` and an empty `count_tag`, the
run does not fail at all — in particular not with the
"must have tags" `ConfigurationError` — it succeeds and creates the fallback
`count = 1` machine. -/
theorem C4_counterexample :
    (create_virtual_machine sdcRunning paramsC4).1 = .ok (true, ["raw-m0"]) ∧
      (create_virtual_machine sdcRunning paramsC4).1 ≠
        .error (.failJson
          "Must have tags to list existing machines for deletion/counting") := by
  constructor
  · rfl
  · intro h
    rw [show (create_virtual_machine sdcRunning paramsC4).1 =
      .ok (true, ["raw-m0"]) from rfl] at h
    exact Except.noConfusion h

/-- C4 (amended): if `exact_count` is set but `count_tag` is empty, the
exact-count branch — and with it the `list_existing_machines` check that
would raise the `ConfigurationError` — is skipped entirely: the run never
fails with that error, issues no listing call, and instead creates the
fallback `count` machines. -/
theorem C4_empty_count_tag_fallback (sdc : SDC) (p : Params) (n : Int)
    (hct : p.count_tag = []) (hec : p.exact_count = some n) :
    (create_virtual_machine sdc p).1 ≠
        .error (.failJson
          "Must have tags to list existing machines for deletion/counting") ∧
      createCount (create_virtual_machine sdc p).2 = p.count.toNat ∧
      ∀ t s, ApiCall.listMachines t s ∉ (create_virtual_machine sdc p).2 := by
  have hem : exactModeB p n = false := by simp [exactModeB, hct]
  refine ⟨?_, ?_, ?_⟩
  · rcases create_fst_ok_or_timeout sdc p n hec with ⟨b, l, h⟩ | h
    · rw [h]
      simp
    · rw [h]
      intro hcontra
      have hmsg : "Timed out creating machines" =
          "Must have tags to list existing machines for deletion/counting" := by
        injection hcontra with h1
        injection h1
      exact absurd hmsg (by decide)
  · rw [createCount_create_virtual_machine sdc p n hec]
    simp [countNeeded, hem]
  · exact create_trace_no_list sdc p n hec hem

/-- C4 witness: the counterexample input instantiates the amended claim. -/
theorem C4_empty_count_tag_fallback_witness :
    paramsC4.count_tag = [] ∧ paramsC4.exact_count = some 5 ∧
      ((create_virtual_machine sdcRunning paramsC4).1 ≠
          .error (.failJson
            "Must have tags to list existing machines for deletion/counting") ∧
        createCount (create_virtual_machine sdcRunning paramsC4).2 =
          paramsC4.count.toNat ∧
        ∀ t s, ApiCall.listMachines t s ∉
          (create_virtual_machine sdcRunning paramsC4).2) :=
  ⟨rfl, rfl, C4_empty_count_tag_fallback sdcRunning paramsC4 5 rfl rfl⟩

/-- C5: every key/value pair bound in `count_tag` is bound to the same value
in the tag list passed to every create call of the run: the merged tags
`dict(tags.items() + count_tag.items())` always contain `count_tag`, so a
later exact-count run with the same `count_tag` counts the machine. -/
theorem C5_count_tag_subset_of_created (sdc : SDC) (p : Params)
    (nm pk im : Option String) (nw : Option (List String))
    (t : List (String × String))
    (hmem : ApiCall.createMachine nm pk im nw t ∈
      (create_virtual_machine sdc p).2)
    (key v : String) (hkv : pyDict p.count_tag key = some v) :
    pyDict t key = some v := by
  rw [create_trace_create_tags sdc p nm pk im nw t hmem]
  exact pyDict_append_right _ key v hkv p.tags

/-- C5 witness: a run with base tags `{env: x}` and `count_tag`
`{role: web}` creates a machine whose tag list maps `role` to `web`. -/
theorem C5_count_tag_subset_of_created_witness :
    (ApiCall.createMachine none none none none
        [("env", "x"), ("role", "web")] ∈
      (create_virtual_machine sdcRunning paramsC5).2) ∧
      pyDict paramsC5.count_tag "role" = some "web" ∧
      pyDict [("env", "x"), ("role", "web")] "role" = some "web" :=
  ⟨by decide, by decide,
    C5_count_tag_subset_of_created sdcRunning paramsC5 none none none none
      [("env", "x"), ("role", "web")] (by decide) "role" "web" (by decide)⟩

/-- C6 counterexample: the claimed failure message
"timed out creating machines" does not match the code: at a concrete stuck
run the failure carries "Timed out creating machines" (capital T), not the
claimed string. -/
theorem C6_counterexample :
    (create_virtual_machine sdcStuck paramsC6).1 =
        .error (.failJson "Timed out creating machines") ∧
      (create_virtual_machine sdcStuck paramsC6).1 ≠
        .error (.failJson "timed out creating machines") := by
  constructor
  · rfl
  · intro h
    rw [show (create_virtual_machine sdcStuck paramsC6).1 =
      .error (.failJson "Timed out creating machines") from rfl] at h
    injection h with h1
    injection h1 with h2
    exact absurd h2 (by decide)

/-- C6 (amended): if `wait` is true, machines were created
(`countNeeded > 0`), and the final status check after the polling deadline
finds some created machine not running, the run fails with the
`fail_json` message "Timed out creating machines" (capital T), and the
trace holds exactly the `countNeeded` create calls issued before the wait —
none after the failure. -/
theorem C6_wait_timeout_failure (sdc : SDC) (p : Params) (n : Int)
    (hec : p.exact_count = some n) (hw : p.wait = true)
    (hpos : countNeeded sdc p n > 0)
    (hfail : (allStatus sdc "running"
        (loopExitIdx sdc (createdMachines sdc p n) "running"
          (pollBudget p.wait_timeout) 0 + 1) (createdMachines sdc p n)).1
      = false) :
    (create_virtual_machine sdc p).1 =
        .error (.failJson "Timed out creating machines") ∧
      createCount (create_virtual_machine sdc p).2 =
        (countNeeded sdc p n).toNat := by
  have herr : (wait_for_status sdc (createdMachines sdc p n) "running"
      p.wait_timeout).1 = .error (.failJson "Timed out creating machines") :=
    (wait_for_status_fst_error_iff sdc (createdMachines sdc p n) "running"
      p.wait_timeout).mpr hfail
  constructor
  · rw [create_virtual_machine_run sdc p n hec]
    dsimp only
    rw [if_pos hpos, hw, if_pos (Eq.refl true)]
    rcases hres : wait_for_status sdc (createdMachines sdc p n) "running"
        p.wait_timeout with ⟨res, wtr⟩
    rw [hres] at herr
    dsimp only at herr
    cases res with
    | error err =>
      dsimp only
      injection herr with h1
      rw [h1]
    | ok u => exact absurd herr (by simp)
  · exact createCount_create_virtual_machine sdc p n hec

/-- C6 witness: two machines requested via `exact_count = 2`, a provider
stuck in `"provisioning"` and a zero wait budget: the run fails with the
capital-T message after issuing exactly two create calls. -/
theorem C6_wait_timeout_failure_witness :
    paramsC6.wait = true ∧ countNeeded sdcStuck paramsC6 2 > 0 ∧
      (allStatus sdcStuck "running"
        (loopExitIdx sdcStuck (createdMachines sdcStuck paramsC6 2) "running"
          (pollBudget paramsC6.wait_timeout) 0 + 1)
        (createdMachines sdcStuck paramsC6 2)).1 = false ∧
      ((create_virtual_machine sdcStuck paramsC6).1 =
          .error (.failJson "Timed out creating machines") ∧
        createCount (create_virtual_machine sdcStuck paramsC6).2 =
          (countNeeded sdcStuck paramsC6 2).toNat) :=
  ⟨rfl, by decide, by decide,
    C6_wait_timeout_failure sdcStuck paramsC6 2 rfl rfl (by decide) (by decide)⟩

/-- C7: whenever `delete_machines` selects a nonempty machine list, the
trace is the selection call, then one stop call per machine, then only
status queries (the stopped-convergence wait), and the delete calls come
after all of that — and only when the wait succeeded; on a wait failure no
delete call is ever issued.  In particular every delete is preceded by the
corresponding stop. -/
theorem C7_stop_wait_delete_order (sdc : SDC) (p : Params)
    (hne : selectedMachines sdc p ≠ []) :
    ∃ wtr : List ApiCall,
      (∀ c ∈ wtr, ∃ i, c = ApiCall.status i) ∧
      ((delete_machines sdc p).1 = .ok true →
        (delete_machines sdc p).2 =
          selectionCalls p
            ++ (selectedMachines sdc p).map (fun m => ApiCall.stop m.id)
            ++ wtr
            ++ (selectedMachines sdc p).map (fun m => ApiCall.delete m.id)) ∧
      ((delete_machines sdc p).1 ≠ .ok true →
        (delete_machines sdc p).2 =
          selectionCalls p
            ++ (selectedMachines sdc p).map (fun m => ApiCall.stop m.id)
            ++ wtr) := by
  have hie : (selectedMachines sdc p).isEmpty = false :=
    List.isEmpty_eq_false.mpr hne
  unfold delete_machines
  dsimp only
  rw [hie, if_neg (by simp)]
  rcases hres : wait_for_status sdc (selectedMachines sdc p) "stopped"
      p.wait_timeout with ⟨res, wtr⟩
  have hstat : ∀ c ∈ wtr, ∃ i, c = ApiCall.status i := fun c hc =>
    wait_for_status_snd_mem sdc (selectedMachines sdc p) "stopped"
      p.wait_timeout c (by rw [hres]; exact hc)
  cases res with
  | error err =>
    refine ⟨wtr, hstat, ?_, ?_⟩
    · intro h
      exact absurd h (by simp)
    · intro h
      rfl
  | ok u =>
    refine ⟨wtr, hstat, ?_, ?_⟩
    · intro h
      rfl
    · intro h
      exact absurd rfl h

/-- C7 witness: deleting by `machine_id` against a provider reporting
`"stopped"`: the selection is nonempty and the trace decomposes as
selection, stop, statuses, delete. -/
theorem C7_stop_wait_delete_order_witness :
    selectedMachines sdcStopped paramsC7 ≠ [] ∧
      ∃ wtr : List ApiCall,
        (∀ c ∈ wtr, ∃ i, c = ApiCall.status i) ∧
        ((delete_machines sdcStopped paramsC7).1 = .ok true →
          (delete_machines sdcStopped paramsC7).2 =
            selectionCalls paramsC7
              ++ (selectedMachines sdcStopped paramsC7).map
                  (fun m => ApiCall.stop m.id)
              ++ wtr
              ++ (selectedMachines sdcStopped paramsC7).map
                  (fun m => ApiCall.delete m.id)) ∧
        ((delete_machines sdcStopped paramsC7).1 ≠ .ok true →
          (delete_machines sdcStopped paramsC7).2 =
            selectionCalls paramsC7
              ++ (selectedMachines sdcStopped paramsC7).map
                  (fun m => ApiCall.stop m.id)
              ++ wtr) :=
  ⟨by decide, C7_stop_wait_delete_order sdcStopped paramsC7 (by decide)⟩

/-- C8: with an empty tag set and no `machine_id`, `delete_machines` selects
nothing, issues no provider call whatsoever, and reports
`changed = false`. -/
theorem C8_delete_nothing (sdc : SDC) (p : Params)
    (ht : p.tags = []) (hm : p.machine_id = none) :
    delete_machines sdc p = (.ok false, []) := by
  have hsel : selectedMachines sdc p = [] := by
    simp [selectedMachines, ht, hm, strTruthy]
  have hcalls : selectionCalls p = [] := by
    simp [selectionCalls, ht, hm, strTruthy]
  unfold delete_machines
  dsimp only
  rw [hsel, hcalls]
  rfl

/-- C8 witness: the all-defaults parameter set deletes nothing with an empty
trace. -/
theorem C8_delete_nothing_witness :
    ({} : Params).tags = [] ∧ ({} : Params).machine_id = none ∧
      delete_machines sdcRunning {} = (.ok false, []) :=
  ⟨rfl, rfl, C8_delete_nothing sdcRunning {} rfl rfl⟩

/-- C9: when base `tags` and `count_tag` bind the same key to different
values, every create call of the run carries `count_tag`'s value for that
key: in `dict(tags.items() + count_tag.items())` the later `count_tag`
binding wins. -/
theorem C9_merge_later_wins (sdc : SDC) (p : Params)
    (nm pk im : Option String) (nw : Option (List String))
    (t : List (String × String))
    (hmem : ApiCall.createMachine nm pk im nw t ∈
      (create_virtual_machine sdc p).2)
    (key v1 v2 : String)
    (h1 : pyDict p.tags key = some v1)
    (h2 : pyDict p.count_tag key = some v2)
    (hne : v1 ≠ v2) :
    pyDict t key = some v2 := by
  rw [create_trace_create_tags sdc p nm pk im nw t hmem]
  exact pyDict_append_right _ key v2 h2 p.tags

/-- C9 witness: base tags `{role: db}` against `count_tag` `{role: web}`:
the machine is created with `role = web`. -/
theorem C9_merge_later_wins_witness :
    (ApiCall.createMachine none none none none
        [("role", "db"), ("role", "web")] ∈
      (create_virtual_machine sdcRunning paramsC9).2) ∧
      pyDict paramsC9.tags "role" = some "db" ∧
      pyDict paramsC9.count_tag "role" = some "web" ∧
      pyDict [("role", "db"), ("role", "web")] "role" = some "web" :=
  ⟨by decide, by decide, by decide,
    C9_merge_later_wins sdcRunning paramsC9 none none none none
      [("role", "db"), ("role", "web")] (by decide) "role" "db" "web"
      (by decide) (by decide) (by decide)⟩

/-- C10: the wait fails exactly when the final status check after the
polling loop exits finds some tracked machine not in the target status; and
with `wait_timeout ≤ 0` (zero poll budget) the statuses are still checked —
every tracked machine is queried — and the wait succeeds when all already
report the target status. -/
theorem C10_wait_final_check (sdc : SDC) (ms : List Machine)
    (target : String) (wt : Int) :
    ((wait_for_status sdc ms target wt).1 =
        .error (.failJson "Timed out creating machines") ↔
      ∃ m ∈ ms, sdc.statusAt m.id
        (loopExitIdx sdc ms target (pollBudget wt) 0 + 1) ≠ target) ∧
    (wt ≤ 0 → (∀ m ∈ ms, ∀ e, sdc.statusAt m.id e = target) →
      (wait_for_status sdc ms target wt).1 = .ok () ∧
      ∀ m ∈ ms, ApiCall.status m.id ∈ (wait_for_status sdc ms target wt).2) := by
  constructor
  · exact (wait_for_status_fst_error_iff sdc ms target wt).trans
      (allStatus_fst_false_iff sdc target _ ms)
  · intro hwt hall
    have hb : pollBudget wt = 0 := pollBudget_of_nonpos wt hwt
    have h0 := allStatus_of_all sdc target 0 ms fun m hm => hall m hm 0
    have h1 := allStatus_of_all sdc target 1 ms fun m hm => hall m hm 1
    unfold wait_for_status
    rw [hb]
    constructor
    · simp [waitAux, h0, h1]
    · intro m hm
      simp only [waitAux, h0, h1, List.append_eq, List.mem_append]
      exact Or.inl (List.mem_map.mpr ⟨m, hm, rfl⟩)

/-- C10 witness: a single machine already running and `wait_timeout = 0`:
the wait succeeds and the machine's status was queried. -/
theorem C10_wait_final_check_witness :
    ((0 : Int) ≤ 0) ∧
      (∀ m ∈ [Machine.mk "a"], ∀ e : Nat,
        sdcRunning.statusAt m.id e = "running") ∧
      (wait_for_status sdcRunning [Machine.mk "a"] "running" 0).1 = .ok () ∧
      ApiCall.status "a" ∈
        (wait_for_status sdcRunning [Machine.mk "a"] "running" 0).2 :=
  have h := (C10_wait_final_check sdcRunning [Machine.mk "a"] "running" 0).2
    (by decide) (fun m _ e => rfl)
  ⟨by decide, fun m _ e => rfl, h.1, h.2 (Machine.mk "a") (by decide)⟩

end SdcModule
